import Mathlib

/-!
Verification of the PTY session manager of `coder1-ide`
(`src-tauri/src/pty_enhanced.rs`, `pty.rs`, `terminal.rs`).

The Rust code is shallowly embedded: the session registry
(`Arc<Mutex<HashMap<String, PtySession>>>`) becomes an association list,
`Instant` timestamps become natural numbers (seconds), `Duration` arguments
become naturals, and fallible operations return `Except String`, carrying
the very message strings the Rust code produces.  External effects (pty
allocation, process spawn, event emission, reads from the pty) are passed
in as explicit oracle data so the surrounding control flow can be modelled
faithfully.

Error-taxonomy mapping used throughout (spec name -> code string):
  SessionNotFound   -> "Session not found" / "Terminal not found"
  CapacityExceeded  -> "Maximum number of sessions (N) reached"
  ResourceExhausted -> "Failed to create PTY after N attempts: <last error>"
-/

namespace Coder1

/-- One live session of `pty_enhanced.rs` (`struct PtySession`).  The
writer and reader-thread handles carry no state that the verified claims
depend on; the timestamps do. -/
structure PtySession where
  id : String
  createdAt : Nat
  lastActivity : Nat
  deriving Repr, DecidableEq

/-- The registry table `HashMap<String, PtySession>` as an association
list. -/
abbrev Registry := List (String × PtySession)

/-- `HashMap::get` on the registry. -/
def lookupSession (m : Registry) (sid : String) : Option PtySession :=
  match m with
  | [] => none
  | (k, s) :: rest => if k = sid then some s else lookupSession rest sid

/-- `HashMap::remove`: drops the binding for `sid` (no-op when absent). -/
def removeSession (m : Registry) (sid : String) : Registry :=
  m.filter (fun p => p.1 ≠ sid)

/-- `HashMap::insert`: replaces any existing binding for `sid`. -/
def insertSession (m : Registry) (sid : String) (s : PtySession) : Registry :=
  (sid, s) :: removeSession m sid

/-- Bumping `*session.last_activity.lock().unwrap() = Instant::now()` for
the session `sid` (shared `Arc<Mutex<Instant>>`). -/
def touchSession (m : Registry) (sid : String) (now : Nat) : Registry :=
  m.map (fun p => if p.1 = sid then (p.1, { p.2 with lastActivity := now }) else p)

/-- The ids present in the registry, in table order. -/
def sessionIds (m : Registry) : List String := m.map Prod.fst

namespace PtyEnhanced

/-! ### `pty_enhanced.rs`: the enhanced `PtyManager` -/

/-- Manager configuration (`max_sessions`, `retry_attempts`); `new()` sets
10 and 3. -/
structure Config where
  maxSessions : Nat
  retryAttempts : Nat
  deriving Repr, DecidableEq

/-- `PtyManager::new()`. -/
def Config.new : Config := { maxSessions := 10, retryAttempts := 3 }

/-- The error string of the capacity check in `create_session`. -/
def capacityMsg (maxSessions : Nat) : String :=
  "Maximum number of sessions (" ++ toString maxSessions ++ ") reached"

/-- `PtyManager::cleanup_idle_sessions(idle_duration)`: removes every
session with `now.duration_since(last_activity) > idle_duration`; keeps
the rest.  (`Instant` subtraction is truncated, as is `Nat` subtraction.) -/
def cleanupIdleSessions (m : Registry) (now idleDuration : Nat) : Registry :=
  m.filter (fun p => ¬ (now - p.2.lastActivity > idleDuration))

/-- `PtyManager::close_session`: `remove` on the table; `Ok` when a
binding existed, `Err "Session not found"` otherwise. -/
def closeSession (m : Registry) (sid : String) : Registry × Except String Unit :=
  match lookupSession m sid with
  | some _ => (removeSession m sid, .ok ())
  | none => (m, .error "Session not found")

/-- `PtyManager::write_to_session`: on a known id, bumps `last_activity`
and performs the write+flush (outcome `wr` of the external I/O); on an
unknown id fails with `Session not found`. -/
def writeToSession (m : Registry) (sid : String) (now : Nat)
    (wr : Except String Unit) : Registry × Except String Unit :=
  match lookupSession m sid with
  | some _ => (touchSession m sid now, wr)
  | none => (m, .error "Session not found")

/-- `PtyManager::resize_session`: bumps `last_activity` when the id is
known, logs that resizing is not implemented, and returns `Ok(())`
unconditionally.  No command ever reaches the pty (the master handle is
not retained), so the returned command trace is empty. -/
def resizeSession (m : Registry) (sid : String) (now : Nat)
    (rows cols : Nat) : Registry × Except String Unit × List (Nat × Nat) :=
  match lookupSession m sid with
  | some _ => (touchSession m sid now, .ok (), [])
  | none => (m, .ok (), [])

/-- Outcome trace of one run of `create_pty_with_retry`: the final result,
the sleeps performed between attempts (milliseconds, in order), and the
number of `openpty` attempts made. -/
structure RetryTrace where
  result : Except String Unit
  delays : List Nat
  attemptsMade : Nat
  deriving Repr

/-- The sleep inserted before attempt `attempt` (`attempt > 0`):
`Duration::from_millis(100 * 2_u64.pow(attempt))`. -/
def backoffDelay (attempt : Nat) : Nat := 100 * 2 ^ attempt

/-- The error string produced after exhausting all retries. -/
def exhaustedMsg (retryAttempts : Nat) (lastError : String) : String :=
  "Failed to create PTY after " ++ toString retryAttempts ++ " attempts: " ++ lastError

/-- The `for attempt in 0..retry_attempts` loop of `create_pty_with_retry`,
entered at iteration `attempt` with `remaining = retry_attempts - attempt`
iterations left and accumulated `lastError`.  `alloc i` is the outcome of
the `native_pty_system().openpty(size)` call on iteration `i`.  Before
every attempt except the first, the loop sleeps `backoffDelay attempt`. -/
def retryAux (alloc : Nat → Except String Unit) (retryAttempts : Nat) :
    Nat → Nat → String → RetryTrace
  | 0, _, lastError =>
    { result := .error (exhaustedMsg retryAttempts lastError),
      delays := [], attemptsMade := 0 }
  | remaining + 1, attempt, lastError =>
    let ds : List Nat := if 0 < attempt then [backoffDelay attempt] else []
    match alloc attempt with
    | .ok _ =>
      { result := .ok (), delays := ds, attemptsMade := 1 }
    | .error e =>
      let t := retryAux alloc retryAttempts remaining (attempt + 1) e
      { result := t.result, delays := ds ++ t.delays,
        attemptsMade := t.attemptsMade + 1 }

/-- `PtyManager::create_pty_with_retry` (`last_error` starts empty, loop
from attempt 0, `retry_attempts` iterations in total). -/
def createPtyWithRetry (cfg : Config) (alloc : Nat → Except String Unit) : RetryTrace :=
  retryAux alloc cfg.retryAttempts cfg.retryAttempts 0 ""

/-- External outcomes consumed by one `create_session` call: the pty
allocation oracle, the results of `spawn_command`, `try_clone_reader` and
`take_writer`, the generated UUID, and the current time. -/
structure CreateEnv where
  alloc : Nat → Except String Unit
  spawn : Except String Unit
  cloneReader : Except String Unit
  takeWriter : Except String Unit
  newId : String
  now : Nat

/-- The capacity-check block at the top of `create_session`: when the
table is at or above `max_sessions`, runs a 30-minute (1800 s) idle sweep
and re-checks; fails with the capacity message if still full. -/
def capacityPhase (cfg : Config) (m : Registry) (now : Nat) :
    Registry × Except String Unit :=
  if cfg.maxSessions ≤ m.length then
    let swept := cleanupIdleSessions m now 1800
    if cfg.maxSessions ≤ swept.length then
      (swept, .error (capacityMsg cfg.maxSessions))
    else
      (swept, .ok ())
  else
    (m, .ok ())

/-- `PtyManager::create_session`: capacity check (with idle sweep), pty
allocation with retry, shell spawn, reader clone, writer take, then the
new `PtySession` is inserted under a fresh id.  Every failure before the
insert propagates with `?` and leaves the table as the capacity phase
left it. -/
def createSession (cfg : Config) (m : Registry) (env : CreateEnv) :
    Registry × Except String String :=
  match capacityPhase cfg m env.now with
  | (m1, .error e) => (m1, .error e)
  | (m1, .ok _) =>
    match (createPtyWithRetry cfg env.alloc).result with
    | .error e => (m1, .error e)
    | .ok _ =>
      match env.spawn with
      | .error e => (m1, .error e)
      | .ok _ =>
        match env.cloneReader with
        | .error e => (m1, .error e)
        | .ok _ =>
          match env.takeWriter with
          | .error e => (m1, .error e)
          | .ok _ =>
            let s : PtySession :=
              { id := env.newId, createdAt := env.now, lastActivity := env.now }
            (insertSession m1 env.newId s, .ok env.newId)

/-- One per-session entry of `get_stats()`. -/
structure SessionStat where
  id : String
  ageSeconds : Nat
  idleSeconds : Nat
  deriving Repr, DecidableEq

/-- The snapshot returned by `PtyManager::get_stats`. -/
structure Stats where
  activeSessions : Nat
  maxSessions : Nat
  sessions : List SessionStat
  platform : String
  shell : String
  deriving Repr, DecidableEq

/-- `PtyManager::get_stats`: a read-only snapshot (`active_sessions`,
`max_sessions`, per-session age/idle seconds, plus environment facts,
which are passed in as parameters). -/
def getStats (cfg : Config) (m : Registry) (now : Nat)
    (platform shell : String) : Stats :=
  { activeSessions := m.length
    maxSessions := cfg.maxSessions
    sessions := m.map (fun p =>
      { id := p.1
        ageSeconds := now - p.2.createdAt
        idleSeconds := now - p.2.lastActivity })
    platform := platform
    shell := shell }

end PtyEnhanced

/-! ### `String::from_utf8_lossy`

The reader threads decode the bytes they read with
`String::from_utf8_lossy(&buffer[..n])`, which replaces each maximal
invalid subsequence with U+FFFD instead of failing.  Bytes are naturals
(values 0–255). -/

/-- U+FFFD, the replacement character. -/
def replacementChar : Char := Char.ofNat 0xFFFD

/-- Is `b` a UTF-8 continuation byte (`0x80..=0xBF`)? -/
def isCont (b : Nat) : Bool := 0x80 ≤ b ∧ b ≤ 0xBF

/-- Valid second byte for the given 3-byte lead (`E0` needs `A0..BF`,
`ED` needs `80..9F`, the rest need `80..BF`). -/
def isCont3 (b0 b1 : Nat) : Bool :=
  if b0 = 0xE0 then 0xA0 ≤ b1 ∧ b1 ≤ 0xBF
  else if b0 = 0xED then 0x80 ≤ b1 ∧ b1 ≤ 0x9F
  else isCont b1

/-- Valid second byte for the given 4-byte lead (`F0` needs `90..BF`,
`F4` needs `80..8F`, the rest need `80..BF`). -/
def isCont4 (b0 b1 : Nat) : Bool :=
  if b0 = 0xF0 then 0x90 ≤ b1 ∧ b1 ≤ 0xBF
  else if b0 = 0xF4 then 0x80 ≤ b1 ∧ b1 ≤ 0x8F
  else isCont b1

/-- Lossy UTF-8 decoding: each maximal well-formed sequence decodes to
its scalar value; each maximal invalid subpart becomes one U+FFFD
(Rust's `from_utf8_lossy` substitution policy). -/
def utf8Lossy : List Nat → List Char
  | [] => []
  | b0 :: rest =>
    if b0 < 0x80 then
      Char.ofNat b0 :: utf8Lossy rest
    else if 0xC2 ≤ b0 ∧ b0 ≤ 0xDF then
      match rest with
      | [] => [replacementChar]
      | b1 :: rest1 =>
        if isCont b1 then
          Char.ofNat ((b0 % 0x20) * 0x40 + b1 % 0x40) :: utf8Lossy rest1
        else
          replacementChar :: utf8Lossy (b1 :: rest1)
    else if 0xE0 ≤ b0 ∧ b0 ≤ 0xEF then
      match rest with
      | [] => [replacementChar]
      | b1 :: rest1 =>
        if isCont3 b0 b1 then
          match rest1 with
          | [] => [replacementChar]
          | b2 :: rest2 =>
            if isCont b2 then
              Char.ofNat ((b0 % 0x10) * 0x1000 + (b1 % 0x40) * 0x40 + b2 % 0x40) ::
                utf8Lossy rest2
            else
              replacementChar :: utf8Lossy (b2 :: rest2)
        else
          replacementChar :: utf8Lossy (b1 :: rest1)
    else if 0xF0 ≤ b0 ∧ b0 ≤ 0xF4 then
      match rest with
      | [] => [replacementChar]
      | b1 :: rest1 =>
        if isCont4 b0 b1 then
          match rest1 with
          | [] => [replacementChar]
          | b2 :: rest2 =>
            if isCont b2 then
              match rest2 with
              | [] => [replacementChar]
              | b3 :: rest3 =>
                if isCont b3 then
                  Char.ofNat ((b0 % 8) * 0x40000 + (b1 % 0x40) * 0x1000 +
                    (b2 % 0x40) * 0x40 + b3 % 0x40) :: utf8Lossy rest3
                else
                  replacementChar :: utf8Lossy (b3 :: rest3)
            else
              replacementChar :: utf8Lossy (b2 :: rest2)
        else
          replacementChar :: utf8Lossy (b1 :: rest1)
    else
      replacementChar :: utf8Lossy rest

namespace PtyEnhanced

/-! ### The reader pump of `pty_enhanced.rs` (`create_session`, reader thread) -/

/-- One return of `reader.read(&mut buffer)`: `bytes bs` is `Ok(n)` with
the `n = bs.length` bytes read (so `bytes []` is the zero-length EOF
read), `readErr e` is `Err(e)`. -/
inductive ReadResult where
  | bytes (bs : List Nat)
  | readErr (e : String)
  deriving Repr, DecidableEq

/-- A `terminal-output` event payload (`struct TerminalOutput`). -/
structure TerminalOutput where
  id : String
  data : List Char
  deriving Repr, DecidableEq

/-- The reader-thread loop: each list element is one `read` return paired
with the `Instant::now()` of that iteration.  On `Ok(n)` with `n > 0` it
bumps the session's shared `last_activity`, decodes the bytes lossily
and emits `terminal-output { id, data }`; on `Ok(0)` or `Err(_)` it
breaks.  Returns the registry (whose `sid` entry the pump's
`Arc<Mutex<Instant>>` writes reach), the emitted events, and how many
reads were consumed. -/
def readerPump (sid : String) : Registry → List (Nat × ReadResult) →
    Registry × List TerminalOutput × Nat
  | m, [] => (m, [], 0)
  | m, (_, .bytes []) :: _ => (m, [], 1)
  | m, (t, .bytes (b :: bs)) :: rest =>
    let m1 := touchSession m sid t
    let r := readerPump sid m1 rest
    (r.1, ⟨sid, utf8Lossy (b :: bs)⟩ :: r.2.1, r.2.2 + 1)
  | m, (_, .readErr _) :: _ => (m, [], 1)

/-- Specification view of the pump's input: the reads it acts on, i.e.
the longest prefix of non-empty successful reads. -/
def liveReads : List (Nat × ReadResult) → List (Nat × List Nat)
  | [] => []
  | (t, .bytes (b :: bs)) :: rest => (t, b :: bs) :: liveReads rest
  | (_, .bytes []) :: _ => []
  | (_, .readErr _) :: _ => []

/-- Does the read list reach a terminating read (zero-length or error)
after its live prefix? -/
def hitsStop : List (Nat × ReadResult) → Bool
  | [] => false
  | (_, .bytes (_ :: _)) :: rest => hitsStop rest
  | (_, .bytes []) :: _ => true
  | (_, .readErr _) :: _ => true

end PtyEnhanced

namespace PtyMin

/-! ### `pty.rs`: the minimal `PtyManager` -/

/-- `pty.rs`'s `PtyManager::close_session`: removes the binding if present
and returns `Ok(())` regardless of whether the id existed. -/
def closeSession (m : Registry) (sid : String) : Registry × Except String Unit :=
  (removeSession m sid, .ok ())

end PtyMin

namespace TerminalM

/-! ### `terminal.rs`: `TerminalManager` -/

/-- `terminal.rs`'s `struct Terminal`: it retains the pty master handle
(field `pty`), so a resize command can actually be issued against the OS
pty.  No activity timestamp exists in this variant. -/
structure Terminal where
  id : String
  deriving Repr, DecidableEq

abbrev TerminalTable := List (String × Terminal)

/-- `HashMap::get` on the terminal table. -/
def lookupTerminal (m : TerminalTable) (tid : String) : Option Terminal :=
  match m with
  | [] => none
  | (k, t) :: rest => if k = tid then some t else lookupTerminal rest tid

/-- `TerminalManager::resize_terminal`: on a known id, issues
`pty.resize(PtySize { rows, cols, .. })` against the retained master
handle (recorded in the command trace) and returns the outcome `r` of
that call; on an unknown id fails with `Terminal not found`. -/
def resizeTerminal (m : TerminalTable) (tid : String) (rows cols : Nat)
    (r : Except String Unit) : Except String Unit × List (Nat × Nat) :=
  match lookupTerminal m tid with
  | some _ => (r, [(rows, cols)])
  | none => (.error "Terminal not found", [])

/-- `TerminalManager::close_terminal`: removes the binding if present and
returns `Ok(())` regardless of whether the id existed. -/
def closeTerminal (m : TerminalTable) (tid : String) : TerminalTable × Except String Unit :=
  (m.filter (fun p => p.1 ≠ tid), .ok ())

end TerminalM

/-! ## Helper lemmas -/

theorem lookupSession_removeSession (m : Registry) (sid : String) :
    lookupSession (removeSession m sid) sid = none := by
  induction m with
  | nil => rfl
  | cons p rest ih =>
    by_cases h : p.1 = sid
    · simpa [removeSession, List.filter, h] using ih
    · simpa [removeSession, List.filter, h, lookupSession] using ih

theorem notMem_removeSession_ids (m : Registry) (sid : String) :
    sid ∉ (removeSession m sid).map Prod.fst := by
  simp only [removeSession, List.mem_map, List.mem_filter]
  rintro ⟨p, ⟨-, hne⟩, heq⟩
  simp [heq] at hne

theorem sessionIds_touchSession (m : Registry) (sid : String) (now : Nat) :
    sessionIds (touchSession m sid now) = sessionIds m := by
  induction m with
  | nil => rfl
  | cons p rest ih =>
    by_cases h : p.1 = sid <;>
      simpa [sessionIds, touchSession, h] using ih

theorem retryAux_attempts_all_fail (alloc : Nat → Except String Unit)
    (err : Nat → String) (n : Nat) (hfail : ∀ i, alloc i = .error (err i)) :
    ∀ r a le, (PtyEnhanced.retryAux alloc n r a le).attemptsMade = r := by
  intro r
  induction r with
  | zero => intro a le; rfl
  | succ k ih =>
    intro a le
    simp [PtyEnhanced.retryAux, hfail a, ih]

theorem retryAux_delays_all_fail (alloc : Nat → Except String Unit)
    (err : Nat → String) (n : Nat) (hfail : ∀ i, alloc i = .error (err i)) :
    ∀ r a le, 1 ≤ a →
      (PtyEnhanced.retryAux alloc n r a le).delays =
        (List.range' a r).map PtyEnhanced.backoffDelay := by
  intro r
  induction r with
  | zero => intro a le _; rfl
  | succ k ih =>
    intro a le ha
    rw [List.range'_succ]
    simp [PtyEnhanced.retryAux, hfail a, ih (a + 1) (err a) (by omega),
      Nat.lt_of_lt_of_le Nat.zero_lt_one ha]

theorem retryAux_result_step (alloc : Nat → Except String Unit)
    (n r a : Nat) (le e : String) (h : alloc a = .error e) :
    (PtyEnhanced.retryAux alloc n (r + 1) a le).result =
      (PtyEnhanced.retryAux alloc n r (a + 1) e).result := by
  simp [PtyEnhanced.retryAux, h]

theorem retryAux_result_all_fail (alloc : Nat → Except String Unit)
    (err : Nat → String) (n : Nat) (hfail : ∀ i, alloc i = .error (err i)) :
    ∀ r a le, (PtyEnhanced.retryAux alloc n (r + 1) a le).result =
      .error (PtyEnhanced.exhaustedMsg n (err (a + r))) := by
  intro r
  induction r with
  | zero => intro a le; simp [PtyEnhanced.retryAux, hfail a]
  | succ k ih =>
    intro a le
    have harith : a + 1 + k = a + (k + 1) := by omega
    rw [retryAux_result_step alloc n (k + 1) a le (err a) (hfail a),
      ih (a + 1) (err a), harith]

theorem chain_le_backoff_range (a r : Nat) :
    List.Chain' (· ≤ ·) ((List.range' a r).map PtyEnhanced.backoffDelay) := by
  induction r generalizing a with
  | zero => exact List.chain'_nil
  | succ k ih =>
    rw [List.range'_succ, List.map_cons]
    cases k with
    | zero => simp
    | succ k2 =>
      rw [List.range'_succ, List.map_cons, List.chain'_cons]
      refine ⟨?_, ?_⟩
      · exact Nat.mul_le_mul_left 100 (Nat.pow_le_pow_right (by norm_num) (Nat.le_succ a))
      · have := ih (a + 1)
        rwa [List.range'_succ, List.map_cons] at this

theorem readerPump_eq (sid : String) (reads : List (Nat × PtyEnhanced.ReadResult)) :
    ∀ m : Registry, PtyEnhanced.readerPump sid m reads =
      ((PtyEnhanced.liveReads reads).foldl
        (fun acc p => touchSession acc sid p.1) m,
       (PtyEnhanced.liveReads reads).map
        (fun p => ⟨sid, utf8Lossy p.2⟩),
       (PtyEnhanced.liveReads reads).length +
        (if PtyEnhanced.hitsStop reads then 1 else 0)) := by
  induction reads with
  | nil => intro m; rfl
  | cons hd rest ih =>
    intro m
    obtain ⟨t, rr⟩ := hd
    cases rr with
    | bytes bs =>
      cases bs with
      | nil => rfl
      | cons b bs2 =>
        simp [PtyEnhanced.readerPump, PtyEnhanced.liveReads, PtyEnhanced.hitsStop,
          ih (touchSession m sid t), Nat.add_right_comm]
    | readErr e => rfl

theorem utf8Lossy_invalid_lead (b : Nat) (rest : List Nat)
    (h1 : 0x80 ≤ b) (h2 : b < 0xC2) :
    utf8Lossy (b :: rest) = replacementChar :: utf8Lossy rest := by
  conv_lhs => unfold utf8Lossy
  rw [if_neg (by omega), if_neg (by omega), if_neg (by omega), if_neg (by omega)]

theorem sessionIds_foldl_touch (sid : String) (l : List (Nat × List Nat)) :
    ∀ m : Registry,
      sessionIds (l.foldl (fun acc p => touchSession acc sid p.1) m) = sessionIds m := by
  induction l with
  | nil => intro m; rfl
  | cons p rest ih =>
    intro m
    rw [List.foldl_cons, ih (touchSession m sid p.1), sessionIds_touchSession]

/-! ## Claims -/

/-- **C5.** A single pass of the idle reaper keeps a binding exactly when
it was present and its idle duration (`now - last_activity`) does not
strictly exceed the threshold; equivalently, a session in the registry is
removed by the pass iff its idle duration strictly exceeds the threshold,
and every session with activity within the threshold survives the pass. -/
theorem C5_idle_reaper_strict_threshold (m : Registry) (now threshold : Nat)
    (sid : String) (s : PtySession) :
    (sid, s) ∈ PtyEnhanced.cleanupIdleSessions m now threshold ↔
      ((sid, s) ∈ m ∧ now - s.lastActivity ≤ threshold) := by
  simp [PtyEnhanced.cleanupIdleSessions, List.mem_filter, not_lt]

/-- **C10.** In the minimal variants (`pty.rs` and `terminal.rs`), close
never fails: for every table and every id — present or not —
`close_session` / `close_terminal` return `Ok(())`. -/
theorem C10_minimal_close_never_fails :
    ∀ (m : Registry) (sid : String) (tm : TerminalM.TerminalTable) (tid : String),
      (PtyMin.closeSession m sid).2 = .ok () ∧
      (TerminalM.closeTerminal tm tid).2 = .ok () := by
  intro m sid tm tid
  exact ⟨rfl, rfl⟩

/-- **C3 counterexample.** The claim says `resize_session` on an unknown
id fails with `SessionNotFound`; in `pty_enhanced.rs` it returns
`Ok(())` on the (empty) registry that does not contain `"ghost"`. -/
theorem C3_resize_unknown_id_succeeds_cex :
    lookupSession ([] : Registry) "ghost" = none ∧
    (PtyEnhanced.resizeSession ([] : Registry) "ghost" 0 24 80).2.1 = .ok () :=
  ⟨rfl, rfl⟩

/-- **C3 (amended).** On an id not present in the registry,
`write_to_session` and `close_session` fail with `Session not found` and
leave the registry unchanged, while `resize_session` returns `Ok(())`
(resizing is unimplemented and performs no lookup-failure check). -/
theorem C3_unknown_id (m : Registry) (sid : String) (now : Nat)
    (wr : Except String Unit) (rows cols : Nat)
    (h : lookupSession m sid = none) :
    PtyEnhanced.writeToSession m sid now wr = (m, .error "Session not found") ∧
    PtyEnhanced.closeSession m sid = (m, .error "Session not found") ∧
    PtyEnhanced.resizeSession m sid now rows cols = (m, .ok (), []) := by
  refine ⟨?_, ?_, ?_⟩ <;>
    simp [PtyEnhanced.writeToSession, PtyEnhanced.closeSession,
      PtyEnhanced.resizeSession, h]

/-- Witness for C3 at a concrete input. -/
theorem C3_unknown_id_witness :
    PtyEnhanced.writeToSession [] "ghost" 5 (.ok ()) = ([], .error "Session not found") ∧
    PtyEnhanced.closeSession [] "ghost" = ([], .error "Session not found") ∧
    PtyEnhanced.resizeSession [] "ghost" 5 24 80 = ([], .ok (), []) :=
  C3_unknown_id [] "ghost" 5 (.ok ()) 24 80 rfl

/-- **C4.** Closing a present id succeeds, the id no longer appears in a
subsequent `get_stats` snapshot, and a second `close_session` on the same
id fails with `Session not found`. -/
theorem C4_close_not_idempotent (cfg : PtyEnhanced.Config) (m : Registry)
    (now : Nat) (platform shell : String) (sid : String) (s : PtySession)
    (h : lookupSession m sid = some s) :
    (PtyEnhanced.closeSession m sid).2 = .ok () ∧
    sid ∉ (PtyEnhanced.getStats cfg (PtyEnhanced.closeSession m sid).1 now
      platform shell).sessions.map PtyEnhanced.SessionStat.id ∧
    PtyEnhanced.closeSession (PtyEnhanced.closeSession m sid).1 sid =
      ((PtyEnhanced.closeSession m sid).1, .error "Session not found") := by
  have hclose : PtyEnhanced.closeSession m sid = (removeSession m sid, .ok ()) := by
    simp [PtyEnhanced.closeSession, h]
  refine ⟨by simp [hclose], ?_, ?_⟩
  · rw [hclose]
    simpa [PtyEnhanced.getStats, List.map_map, Function.comp] using
      notMem_removeSession_ids m sid
  · rw [hclose]
    simp [PtyEnhanced.closeSession, lookupSession_removeSession]

/-- Witness for C4 at a concrete input. -/
theorem C4_close_not_idempotent_witness :
    (PtyEnhanced.closeSession [("a", ⟨"a", 0, 0⟩)] "a").2 = .ok () ∧
    "a" ∉ (PtyEnhanced.getStats PtyEnhanced.Config.new
      (PtyEnhanced.closeSession [("a", ⟨"a", 0, 0⟩)] "a").1 7 "linux"
      "/bin/bash").sessions.map PtyEnhanced.SessionStat.id ∧
    PtyEnhanced.closeSession (PtyEnhanced.closeSession [("a", ⟨"a", 0, 0⟩)] "a").1 "a" =
      ((PtyEnhanced.closeSession [("a", ⟨"a", 0, 0⟩)] "a").1, .error "Session not found") :=
  C4_close_not_idempotent PtyEnhanced.Config.new [("a", ⟨"a", 0, 0⟩)] 7
    "linux" "/bin/bash" "a" ⟨"a", 0, 0⟩ rfl

/-- **C6 counterexample.** The claim says `resize_session` on a present id
updates the pty's dimensions via the session's control handle; in
`pty_enhanced.rs` the session retains no control handle and the call
issues no command to the pty (empty command trace) while still returning
`Ok(())`. -/
theorem C6_resize_no_pty_command_cex :
    lookupSession [("a", ⟨"a", 0, 0⟩)] "a" = some ⟨"a", 0, 0⟩ ∧
    (PtyEnhanced.resizeSession [("a", ⟨"a", 0, 0⟩)] "a" 7 50 120).2.2 = [] ∧
    (PtyEnhanced.resizeSession [("a", ⟨"a", 0, 0⟩)] "a" 7 50 120).2.1 = .ok () :=
  ⟨rfl, rfl, rfl⟩

/-- **C6 (amended).** On a present id, `pty_enhanced.rs`'s
`resize_session` updates the session's `last_activity` and returns
`Ok(())` but issues no resize to the pty (resizing is unimplemented);
`terminal.rs`'s `resize_terminal` issues the `rows × cols` resize on the
retained master handle (returning the outcome of that call) but has no
`last_activity` to update. -/
theorem C6_resize_split (m : Registry) (sid : String) (s : PtySession)
    (now rows cols : Nat) (tm : TerminalM.TerminalTable) (tid : String)
    (t : TerminalM.Terminal) (r : Except String Unit)
    (h1 : lookupSession m sid = some s)
    (h2 : TerminalM.lookupTerminal tm tid = some t) :
    PtyEnhanced.resizeSession m sid now rows cols =
      (touchSession m sid now, .ok (), []) ∧
    TerminalM.resizeTerminal tm tid rows cols r = (r, [(rows, cols)]) := by
  constructor
  · simp [PtyEnhanced.resizeSession, h1]
  · simp [TerminalM.resizeTerminal, h2]

/-- **C1.** When the registry holds at least `max_sessions` live
sessions, `create_session` first attempts the 30-minute (1800 s) idle
sweep: if the swept registry is still at or above the limit it fails
with the capacity-exceeded message and does nothing else; if the sweep
brought the count back under the limit and pty allocation, spawn,
reader clone and writer take all succeed, creation proceeds and
succeeds, inserting the new session into the swept registry. -/
theorem C1_capacity_after_sweep (cfg : PtyEnhanced.Config) (m : Registry)
    (env : PtyEnhanced.CreateEnv) (h : cfg.maxSessions ≤ m.length) :
    (cfg.maxSessions ≤ (PtyEnhanced.cleanupIdleSessions m env.now 1800).length →
      PtyEnhanced.createSession cfg m env =
        (PtyEnhanced.cleanupIdleSessions m env.now 1800,
         .error (PtyEnhanced.capacityMsg cfg.maxSessions))) ∧
    ((PtyEnhanced.cleanupIdleSessions m env.now 1800).length < cfg.maxSessions →
      (PtyEnhanced.createPtyWithRetry cfg env.alloc).result = .ok () →
      env.spawn = .ok () → env.cloneReader = .ok () → env.takeWriter = .ok () →
      PtyEnhanced.createSession cfg m env =
        (insertSession (PtyEnhanced.cleanupIdleSessions m env.now 1800) env.newId
          ⟨env.newId, env.now, env.now⟩, .ok env.newId)) := by
  constructor
  · intro h2
    have hcap : PtyEnhanced.capacityPhase cfg m env.now =
        (PtyEnhanced.cleanupIdleSessions m env.now 1800,
         .error (PtyEnhanced.capacityMsg cfg.maxSessions)) := by
      simp [PtyEnhanced.capacityPhase, h, h2]
    simp [PtyEnhanced.createSession, hcap]
  · intro h2 hA hS hC hW
    have hcap : PtyEnhanced.capacityPhase cfg m env.now =
        (PtyEnhanced.cleanupIdleSessions m env.now 1800, .ok ()) := by
      simp [PtyEnhanced.capacityPhase, h, not_le.mpr h2]
    simp [PtyEnhanced.createSession, hcap, hA, hS, hC, hW]

/-- Witness for C1 at concrete inputs: with `max_sessions = 1` and one
session, creation at `now = 10` (session idle only 10 s, sweep removes
nothing) fails with the capacity message, while at `now = 2000` (idle
2000 s > 1800 s, sweep frees the slot) it succeeds. -/
theorem C1_capacity_after_sweep_witness :
    PtyEnhanced.createSession ⟨1, 3⟩ [("a", ⟨"a", 0, 0⟩)]
      ⟨fun _ => .ok (), .ok (), .ok (), .ok (), "n", 10⟩ =
      (PtyEnhanced.cleanupIdleSessions [("a", ⟨"a", 0, 0⟩)] 10 1800,
       .error (PtyEnhanced.capacityMsg 1)) ∧
    PtyEnhanced.createSession ⟨1, 3⟩ [("a", ⟨"a", 0, 0⟩)]
      ⟨fun _ => .ok (), .ok (), .ok (), .ok (), "n", 2000⟩ =
      (insertSession (PtyEnhanced.cleanupIdleSessions [("a", ⟨"a", 0, 0⟩)] 2000 1800)
        "n" ⟨"n", 2000, 2000⟩, .ok "n") :=
  ⟨(C1_capacity_after_sweep ⟨1, 3⟩ [("a", ⟨"a", 0, 0⟩)]
      ⟨fun _ => .ok (), .ok (), .ok (), .ok (), "n", 10⟩ (by decide)).1 (by decide),
   (C1_capacity_after_sweep ⟨1, 3⟩ [("a", ⟨"a", 0, 0⟩)]
      ⟨fun _ => .ok (), .ok (), .ok (), .ok (), "n", 2000⟩ (by decide)).2
     (by decide) rfl rfl rfl rfl⟩

/-- **C9.** If the capacity check passes but any later step of
`create_session` fails — pty allocation after all retries, shell spawn,
cloning the reader, or taking the writer — then `create_session` returns
an error and the registry is exactly what the capacity phase left: no
partial session is inserted, and the table can differ from the pre-call
one only by the idle sweep the capacity check ran. -/
theorem C9_create_failure_inserts_nothing (cfg : PtyEnhanced.Config)
    (m : Registry) (env : PtyEnhanced.CreateEnv)
    (hcap : (PtyEnhanced.capacityPhase cfg m env.now).2 = .ok ())
    (hfail : ¬((PtyEnhanced.createPtyWithRetry cfg env.alloc).result = .ok () ∧
      env.spawn = .ok () ∧ env.cloneReader = .ok () ∧ env.takeWriter = .ok ())) :
    ∃ e, PtyEnhanced.createSession cfg m env =
      ((PtyEnhanced.capacityPhase cfg m env.now).1, .error e) := by
  rcases hc : PtyEnhanced.capacityPhase cfg m env.now with ⟨m1, r⟩
  rw [hc] at hcap
  cases r with
  | error e1 => exact Except.noConfusion hcap
  | ok u =>
    cases u
    cases hr : (PtyEnhanced.createPtyWithRetry cfg env.alloc).result with
    | error e2 => exact ⟨e2, by simp [PtyEnhanced.createSession, hc, hr]⟩
    | ok u2 =>
      cases u2
      cases hs : env.spawn with
      | error e3 => exact ⟨e3, by simp [PtyEnhanced.createSession, hc, hr, hs]⟩
      | ok u3 =>
        cases u3
        cases hcr : env.cloneReader with
        | error e4 => exact ⟨e4, by simp [PtyEnhanced.createSession, hc, hr, hs, hcr]⟩
        | ok u4 =>
          cases u4
          cases hw : env.takeWriter with
          | error e5 =>
            exact ⟨e5, by simp [PtyEnhanced.createSession, hc, hr, hs, hcr, hw]⟩
          | ok u5 =>
            cases u5
            exact absurd ⟨hr, hs, hcr, hw⟩ hfail

/-- Witness for C9 at a concrete input: the spawn fails, creation
reports an error, and the (empty) registry is exactly what the capacity
phase produced. -/
theorem C9_create_failure_inserts_nothing_witness :
    ∃ e, PtyEnhanced.createSession PtyEnhanced.Config.new []
      ⟨fun _ => .ok (), .error "boom", .ok (), .ok (), "n", 0⟩ =
      ((PtyEnhanced.capacityPhase PtyEnhanced.Config.new [] 0).1, .error e) :=
  C9_create_failure_inserts_nothing PtyEnhanced.Config.new []
    ⟨fun _ => .ok (), .error "boom", .ok (), .ok (), "n", 0⟩ rfl
    (fun h => Except.noConfusion h.2.1)

/-- **C2 counterexample.** With the default configuration
(`retry_attempts = 3`) and every allocation failing, the waits between
attempts are 200 ms then 400 ms — the code sleeps
`100·2^attempt` ms before attempt `attempt ≥ 1` — so no 100 ms wait ever
occurs, contrary to the claimed 100 ms starting delay. -/
theorem C2_first_backoff_is_200_cex :
    (PtyEnhanced.createPtyWithRetry PtyEnhanced.Config.new
      (fun _ => .error "boom")).delays = [200, 400] ∧
    100 ∉ (PtyEnhanced.createPtyWithRetry PtyEnhanced.Config.new
      (fun _ => .error "boom")).delays := by
  exact ⟨by decide, by decide⟩

/-- **C2 (amended).** When every pty allocation attempt fails,
`create_pty_with_retry` makes exactly `retry_attempts` attempts, sleeps
`100·2^attempt` ms before each attempt `attempt ≥ 1` (so the waits are
200 ms, 400 ms, …, doubling each time but starting at 200 ms, not
100 ms), the successive delays are non-decreasing, and the final failure
carries the last underlying error in its message. -/
theorem C2_retry_exhaustion (cfg : PtyEnhanced.Config)
    (alloc : Nat → Except String Unit) (err : Nat → String)
    (hn : 1 ≤ cfg.retryAttempts) (hfail : ∀ i, alloc i = .error (err i)) :
    (PtyEnhanced.createPtyWithRetry cfg alloc).attemptsMade = cfg.retryAttempts ∧
    (PtyEnhanced.createPtyWithRetry cfg alloc).delays =
      (List.range' 1 (cfg.retryAttempts - 1)).map PtyEnhanced.backoffDelay ∧
    List.Chain' (· ≤ ·) (PtyEnhanced.createPtyWithRetry cfg alloc).delays ∧
    (PtyEnhanced.createPtyWithRetry cfg alloc).result =
      .error (PtyEnhanced.exhaustedMsg cfg.retryAttempts
        (err (cfg.retryAttempts - 1))) := by
  obtain ⟨k, hk⟩ : ∃ k, cfg.retryAttempts = k + 1 :=
    ⟨cfg.retryAttempts - 1, by omega⟩
  have hd1 : (PtyEnhanced.retryAux alloc (k + 1) k 1 (err 0)).delays =
      (List.range' 1 k).map PtyEnhanced.backoffDelay :=
    retryAux_delays_all_fail alloc err (k + 1) hfail k 1 (err 0) (le_refl 1)
  have hdelays : (PtyEnhanced.createPtyWithRetry cfg alloc).delays =
      (List.range' 1 (cfg.retryAttempts - 1)).map PtyEnhanced.backoffDelay := by
    rw [PtyEnhanced.createPtyWithRetry, hk]
    simp [PtyEnhanced.retryAux, hfail 0, hd1]
  refine ⟨?_, hdelays, ?_, ?_⟩
  · rw [PtyEnhanced.createPtyWithRetry,
      retryAux_attempts_all_fail alloc err cfg.retryAttempts hfail]
  · rw [hdelays]
    exact chain_le_backoff_range 1 (cfg.retryAttempts - 1)
  · rw [PtyEnhanced.createPtyWithRetry, hk,
      retryAux_result_all_fail alloc err (k + 1) hfail k 0 ""]
    simp

/-- Witness for C2 at a concrete input (default config, every attempt
failing with "boom"). -/
theorem C2_retry_exhaustion_witness :
    (PtyEnhanced.createPtyWithRetry PtyEnhanced.Config.new
      (fun _ => .error "boom")).attemptsMade = 3 ∧
    (PtyEnhanced.createPtyWithRetry PtyEnhanced.Config.new
      (fun _ => .error "boom")).delays =
      (List.range' 1 2).map PtyEnhanced.backoffDelay ∧
    List.Chain' (· ≤ ·) (PtyEnhanced.createPtyWithRetry PtyEnhanced.Config.new
      (fun _ => .error "boom")).delays ∧
    (PtyEnhanced.createPtyWithRetry PtyEnhanced.Config.new
      (fun _ => .error "boom")).result =
      .error (PtyEnhanced.exhaustedMsg 3 "boom") :=
  C2_retry_exhaustion PtyEnhanced.Config.new (fun _ => .error "boom")
    (fun _ => "boom") (by decide) (fun _ => rfl)

/-- **C7.** The reader pump, run over any sequence of reads: it consumes
exactly the longest prefix of non-empty successful reads plus the first
terminating read (zero-length or error) if one follows; for each
non-empty read it bumps the session's `last_activity` to that
iteration's time and emits a `terminal-output { id, data }` event whose
data is the lossy UTF-8 decoding of the bytes read; and the lossy
decoding replaces an invalid lead byte with U+FFFD and carries on rather
than failing. -/
theorem C7_reader_pump_behavior (sid : String) (m : Registry)
    (reads : List (Nat × PtyEnhanced.ReadResult)) :
    (PtyEnhanced.readerPump sid m reads =
      ((PtyEnhanced.liveReads reads).foldl
        (fun acc p => touchSession acc sid p.1) m,
       (PtyEnhanced.liveReads reads).map
        (fun p => ⟨sid, utf8Lossy p.2⟩),
       (PtyEnhanced.liveReads reads).length +
        (if PtyEnhanced.hitsStop reads then 1 else 0))) ∧
    (∀ b rest, 0x80 ≤ b → b < 0xC2 →
      utf8Lossy (b :: rest) = replacementChar :: utf8Lossy rest) :=
  ⟨readerPump_eq sid reads m, fun b rest h1 h2 => utf8Lossy_invalid_lead b rest h1 h2⟩

/-- **C8 counterexample.** A session whose shell exits (the pump reads a
chunk and then the zero-length EOF read, consuming both and terminating)
is *not* removed from the registry: it is still found by id lookup and
still counted by `get_stats`, contrary to the claim. -/
theorem C8_session_survives_pump_cex :
    (PtyEnhanced.readerPump "s1" [("s1", ⟨"s1", 0, 0⟩)]
      [(5, .bytes [104]), (6, .bytes [])]).2.2 = 2 ∧
    lookupSession (PtyEnhanced.readerPump "s1" [("s1", ⟨"s1", 0, 0⟩)]
      [(5, .bytes [104]), (6, .bytes [])]).1 "s1" = some ⟨"s1", 0, 5⟩ ∧
    (PtyEnhanced.getStats PtyEnhanced.Config.new
      (PtyEnhanced.readerPump "s1" [("s1", ⟨"s1", 0, 0⟩)]
        [(5, .bytes [104]), (6, .bytes [])]).1 9 "linux"
      "/bin/bash").activeSessions = 1 :=
  ⟨rfl, by decide, rfl⟩

/-- **C8 (amended).** Pump termination triggers no removal: the reader
pump never changes the set of registered ids (it only bumps
`last_activity`), so a session whose shell has exited remains in the
registry — and in `get_stats` — until an explicit `close_session` or an
idle sweep removes it. -/
theorem C8_pump_never_removes (sid : String) (m : Registry)
    (reads : List (Nat × PtyEnhanced.ReadResult)) :
    sessionIds (PtyEnhanced.readerPump sid m reads).1 = sessionIds m := by
  rw [readerPump_eq sid reads m]
  exact sessionIds_foldl_touch sid (PtyEnhanced.liveReads reads) m

/-- Witness for C6 at a concrete input. -/
theorem C6_resize_split_witness :
    PtyEnhanced.resizeSession [("a", ⟨"a", 0, 0⟩)] "a" 7 50 120 =
      (touchSession [("a", ⟨"a", 0, 0⟩)] "a" 7, .ok (), []) ∧
    TerminalM.resizeTerminal [("t", ⟨"t"⟩)] "t" 50 120 (.ok ()) =
      (.ok (), [(50, 120)]) :=
  C6_resize_split [("a", ⟨"a", 0, 0⟩)] "a" ⟨"a", 0, 0⟩ 7 50 120
    [("t", ⟨"t"⟩)] "t" ⟨"t"⟩ (.ok ()) rfl rfl

end Coder1
